import Mathlib

/-!
# Verification of the Dashboard-NOC metrics/availability engine

Shallow embedding of the metrics aggregation and availability-computation
engine of the Dashboard-NOC repository, together with proofs settling the
frozen claims about it.

Conventions used throughout:
* epoch seconds and epoch milliseconds are embedded as `ℤ`;
* quantities that the TypeScript source computes with floating point
  division (seconds buckets, minutes, percentages) are embedded as `ℚ`
  (all the divisions involved are exact in the source scenarios);
* JavaScript `Array.prototype.sort` is a stable comparison sort, so it is
  embedded as `List.insertionSort` (stable); a stable sort's output is
  uniquely determined by the comparator, so this is faithful;
* `while` loops are embedded as fuel-indexed structural recursion, with the
  fuel instantiated by the wrapper to a provably sufficient bound.
-/

namespace NocDash

/-- Interval of downtime in epoch seconds, `src` type `Interval {start, end}`.
The source field `end` is a Lean keyword, hence the quoted name. -/
structure Interval where
  start : ℤ
  «end» : ℤ
  deriving DecidableEq, Repr

/-- The comparator `(a, b) => a.start - b.start` used by
`mergeIntervals` (part_003 line 1315): `a` sorts no later than `b` iff
`a.start ≤ b.start`. -/
def startLe (a b : Interval) : Prop := a.start ≤ b.start

instance : DecidableRel startLe := fun a b =>
  inferInstanceAs (Decidable (a.start ≤ b.start))

instance : IsTotal Interval startLe :=
  ⟨fun a b => Int.le_total a.start b.start⟩

instance : IsTrans Interval startLe :=
  ⟨fun _ _ _ h₁ h₂ => le_trans h₁ h₂⟩

/-- `[...intervals].sort((a, b) => a.start - b.start)` — a stable sort by
`start` (part_003 line 1315). -/
def sortByStart (intervals : List Interval) : List Interval :=
  intervals.insertionSort startLe

/-- The loop of `mergeIntervals` (part_003 lines 1317-1328), after the sort,
with `cur` the last interval pushed onto `merged` (the one the loop mutates):
if the next interval starts no later than `cur` ends, extend `cur`'s end
(`last.end = Math.max(last.end, interval.end)`), otherwise emit `cur` and
start a new merged interval. -/
def mergeAux : Interval → List Interval → List Interval
  | cur, [] => [cur]
  | cur, i :: rest =>
    if i.start ≤ cur.«end» then
      mergeAux ⟨cur.start, max cur.«end» i.«end»⟩ rest
    else
      cur :: mergeAux i rest

/-- `mergeIntervals` (part_003 lines 1314-1330): sort by `start`, then walk
once merging overlapping/touching intervals. -/
def mergeIntervals (intervals : List Interval) : List Interval :=
  match sortByStart intervals with
  | [] => []
  | first :: rest => mergeAux first rest

/-- `t` is a time instant covered by some interval of `l` (closed view
`start ≤ t ≤ end`; merging treats touching intervals as overlapping, so the
closed reading is the one whose union `mergeIntervals` preserves). -/
def covered (t : ℤ) (l : List Interval) : Prop :=
  ∃ i ∈ l, i.start ≤ t ∧ t ≤ i.«end»

instance (t : ℤ) (l : List Interval) : Decidable (covered t l) :=
  inferInstanceAs (Decidable (∃ i ∈ l, _ ∧ _))

/-! ## Time Window Resolver: `splitSecondsByShift`

`splitSecondsByShift` (part_003 lines 207-238, identical copies in
`src/lib/metrics.ts` lines 161-192 and `src/lib/reachability-report.ts`
lines 319-350) walks `[start*1000, end*1000)` in slices of `SHIFT_STEP_MS`
milliseconds and classifies each slice by the timezone-local minute-of-day
of its starting instant. -/

/-- The engine's module-level configuration: `SHIFT_STEP_MS`,
`BUSINESS_START_MINUTES`, `BUSINESS_END_MINUTES`, and `getMinutesOfDay`
(the timezone-aware minute-of-day of an epoch-millisecond instant,
computed in the source with `formatInTimeZone`; embedded as an
uninterpreted function of the instant). -/
structure ShiftConfig where
  stepMs : ℕ
  businessStartMinutes : ℤ
  businessEndMinutes : ℤ
  minutesOfDay : ℤ → ℤ

/-- The `while (cursor < limit)` loop of `splitSecondsByShift`, embedded
with an explicit iteration budget `fuel` (the JS loop terminates exactly
when `SHIFT_STEP_MS > 0`, advancing at least 1 ms per iteration, so
`(limit - cursor).toNat` iterations always suffice; the wrapper passes that
bound). Returns `(business, off)` in seconds. -/
def splitLoop (cfg : ShiftConfig) : ℕ → ℤ → ℤ → ℚ × ℚ
  | 0, _, _ => (0, 0)
  | fuel + 1, cursor, limit =>
    if cursor < limit then
      let next := min (cursor + (cfg.stepMs : ℤ)) limit
      let duration := next - cursor
      let minutesOfDay := cfg.minutesOfDay cursor
      let isBusiness :=
        cfg.businessStartMinutes ≤ minutesOfDay ∧
          minutesOfDay < cfg.businessEndMinutes
      let rest := splitLoop cfg fuel next limit
      if isBusiness then ((duration : ℚ) / 1000 + rest.1, rest.2)
      else (rest.1, (duration : ℚ) / 1000 + rest.2)
    else (0, 0)

/-- `splitSecondsByShift(startSeconds, endSeconds)`:`{business: 0, off: 0}`
when `end ≤ start`, otherwise the shift-step walk over
`[start*1000, end*1000)`. -/
def splitSecondsByShift (cfg : ShiftConfig) (startSeconds endSeconds : ℤ) : ℚ × ℚ :=
  if endSeconds ≤ startSeconds then (0, 0)
  else splitLoop cfg (endSeconds * 1000 - startSeconds * 1000).toNat
    (startSeconds * 1000) (endSeconds * 1000)

/-! ## Incidents and the `buildDashboardMetrics` problem loop

Embedding of the per-incident quantities of `src/lib/metrics.ts`
(lines 347-533) and of the variant builder in part_003 (lines 418-699).
Host ids and event ids are embedded as `ℕ`; `r_eventid = 0` renders the
JS "`!problem.r_eventid || problem.r_eventid === '0'`" (incident still
open). `recoveryClock` is the result of the `recoveryEventMap` lookup. -/

/-- A `ZabbixProblem` restricted to the fields the metrics engine reads.
`clock` and the acknowledgment clocks are epoch seconds. -/
structure MProblem where
  clock : ℤ
  rEventId : ℕ
  recoveryClock : Option ℤ
  severity : ℕ
  acks : List ℤ
  hosts : List ℕ
  deriving DecidableEq, Repr

/-- `problemStart = Math.max(rawClock, startSeconds)` — the incident start
clamped to the window start (metrics.ts line 349). -/
def problemStart (startSeconds : ℤ) (p : MProblem) : ℤ :=
  max p.clock startSeconds

/-- `resolvedSeconds`: the recovery clock when the incident has a nonzero
`r_eventid` and the recovery lookup produced a clock, else `null`
(metrics.ts lines 360-363, part_003 lines 436-442). -/
def resolvedSeconds (p : MProblem) : Option ℤ :=
  if p.rEventId = 0 then none else p.recoveryClock

/-- `problemEnd = Math.min(resolvedSeconds ?? endSeconds, endSeconds)`
(metrics.ts lines 364-367). -/
def problemEnd (endSeconds : ℤ) (p : MProblem) : ℤ :=
  min ((resolvedSeconds p).getD endSeconds) endSeconds

/-- `durationSeconds = Math.max(0, problemEnd - problemStart)`
(metrics.ts line 368). -/
def durationSeconds (startSeconds endSeconds : ℤ) (p : MProblem) : ℤ :=
  max 0 (problemEnd endSeconds p - problemStart startSeconds p)

/-- `hasOverlap = durationSeconds > 0` (metrics.ts line 369). -/
def hasOverlap (startSeconds endSeconds : ℤ) (p : MProblem) : Prop :=
  0 < durationSeconds startSeconds endSeconds p

instance (startSeconds endSeconds : ℤ) (p : MProblem) :
    Decidable (hasOverlap startSeconds endSeconds p) :=
  inferInstanceAs (Decidable (0 < _))

/-- `startsInsideRange`: the raw clock lies in `[startSeconds, endSeconds)`
(metrics.ts lines 350-353; `Number.isFinite` always holds in the integer
embedding). This is also `shouldCountAlert` (line 356). -/
def startsInsideRange (startSeconds endSeconds : ℤ) (p : MProblem) : Prop :=
  startSeconds ≤ p.clock ∧ p.clock < endSeconds

instance (startSeconds endSeconds : ℤ) (p : MProblem) :
    Decidable (startsInsideRange startSeconds endSeconds p) :=
  inferInstanceAs (Decidable (_ ∧ _))

/-- `[...problem.acknowledges].sort((a, b) => a.clock - b.clock)`
(metrics.ts lines 371-373): acknowledgments sorted ascending by clock. -/
def sortedAcks (p : MProblem) : List ℤ :=
  p.acks.insertionSort (· ≤ ·)

/-- `detectionDelta` (metrics.ts lines 374-379): defined only when at least
one acknowledgment exists and the incident overlaps the window; then
`Math.max(0, firstAck - problemStart)`. -/
def detectionDelta (startSeconds endSeconds : ℤ) (p : MProblem) : Option ℤ :=
  match sortedAcks p with
  | [] => none
  | a :: _ =>
    if hasOverlap startSeconds endSeconds p then
      some (max 0 (a - problemStart startSeconds p))
    else none

/-- `responseDelta` as pushed into the response averages (metrics.ts
lines 380-381, part_003 lines 474-475): always a copy of `detectionDelta`. -/
def responseDelta (startSeconds endSeconds : ℤ) (p : MProblem) : Option ℤ :=
  detectionDelta startSeconds endSeconds p

/-- `resolutionDelta = durationSeconds` (metrics.ts line 384). -/
def resolutionDelta (startSeconds endSeconds : ℤ) (p : MProblem) : ℤ :=
  durationSeconds startSeconds endSeconds p

/-- The `resolutionDurations` array of metrics.ts (lines 341, 385-387): one
entry per incident with `hasOverlap`. -/
def resolutionDurations (startSeconds endSeconds : ℤ) (ps : List MProblem) : List ℤ :=
  ps.filterMap fun p =>
    if hasOverlap startSeconds endSeconds p then
      some (resolutionDelta startSeconds endSeconds p)
    else none

/-- The `responseDurations` array of metrics.ts (lines 340, 376-382): one
entry (a copy of the detection delta) per incident with at least one
acknowledgment and overlap. -/
def responseDurations (startSeconds endSeconds : ℤ) (ps : List MProblem) : List ℤ :=
  ps.filterMap (responseDelta startSeconds endSeconds)

/-- part_003's `resolutionDeltaForMetrics` (lines 443-484): pushed into the
resolution averages only when the incident both starts
(`startsInsideRange`) and resolves (`resolvedInsideRange`) inside the
window, and then equal to `Math.max(0, resolvedSeconds - rawClock)` — the
raw, unclamped start. -/
def resolutionDeltaForMetrics (startSeconds endSeconds : ℤ) (p : MProblem) : Option ℤ :=
  match resolvedSeconds p with
  | none => none
  | some r =>
    if startsInsideRange startSeconds endSeconds p ∧ startSeconds ≤ r ∧ r < endSeconds then
      some (max 0 (r - p.clock))
    else none

/-- part_003's `resolutionDurations` array (lines 411, 478-484). -/
def resolutionDurationsV3 (startSeconds endSeconds : ℤ) (ps : List MProblem) : List ℤ :=
  ps.filterMap (resolutionDeltaForMetrics startSeconds endSeconds)

/-! ## KPI deltas of the open-problems mapper

`mapProblem` in `src/lib/open-problems.ts` (lines 66-118): `startSeconds`
is the raw incident clock (this report has no query window). -/

/-- `detectionDelta` of `mapProblem` (open-problems.ts lines 75-78). -/
def mapProblemDetection (p : MProblem) : Option ℤ :=
  match sortedAcks p with
  | [] => none
  | a :: _ => some (max 0 (a - p.clock))

/-- `responseDelta` of `mapProblem` (open-problems.ts lines 79-82):
`acknowledges.length > 1 ? Math.max(0, acks[1].clock - startSeconds)
: detectionDelta`. -/
def mapProblemResponse (p : MProblem) : Option ℤ :=
  match sortedAcks p with
  | _ :: b :: _ => some (max 0 (b - p.clock))
  | _ => mapProblemDetection p

/-! ## Availability formulas -/

/-- The availability formula shared by all scopes and views of the engine
(e.g. metrics.ts lines 567-584 and 712-722, part_003 lines 800-838 and
1131-1152): `window > 0 ? ((window - downtime) / window) * 100 : 100`.
Note the source applies no clamping to `[0, 100]`. -/
def availabilityPct (windowSeconds downtimeSeconds : ℚ) : ℚ :=
  if 0 < windowSeconds then
    ((windowSeconds - downtimeSeconds) / windowSeconds) * 100
  else 100

/-- Per-host downtime totals `{total, business, off}` in seconds. -/
structure DowntimeTotals where
  total : ℚ
  business : ℚ
  off : ℚ
  deriving DecidableEq, Repr

/-- The per-host body of `buildHostDowntime` (part_003 lines 1288-1312):
merge the host's intervals, then accumulate each merged interval's
duration (skipping zero-duration ones) and its business/off split. -/
def buildHostDowntimeEntry (cfg : ShiftConfig) (intervals : List Interval) :
    DowntimeTotals :=
  if intervals = [] then ⟨0, 0, 0⟩
  else
    (mergeIntervals intervals).foldl
      (fun acc interval =>
        let duration : ℤ := max 0 (interval.«end» - interval.start)
        if duration = 0 then acc
        else
          let split := splitSecondsByShift cfg interval.start interval.«end»
          ⟨acc.total + (duration : ℚ), acc.business + split.1, acc.off + split.2⟩)
      ⟨0, 0, 0⟩

/-- The group downtime accumulation of part_003 (lines 712-726):
`for (const hostId of acc.activeHostIds) acc.downtimeTotal +=
(hostDowntime.get(hostId) ?? {total: 0, ...}).total`. The host-downtime
map is embedded as a total function (absent hosts mapping to zeros). -/
def accumulateGroupDowntime (activeHostIds : List ℕ)
    (hostDowntime : ℕ → DowntimeTotals) : ℚ :=
  activeHostIds.foldl (fun acc hostId => acc + (hostDowntime hostId).total) 0

/-- The per-group availability of `buildGroupSummaries` (part_003 lines
1128-1134): `totalHostSeconds = totalRangeSeconds * activeHostCount`;
`availabilityPct = totalHostSeconds > 0 ? ((totalHostSeconds -
downtimeTotal) / totalHostSeconds) * 100 : 100`. -/
def groupAvailabilityPct (totalRangeSeconds : ℚ) (activeHostCount : ℕ)
    (downtimeTotal : ℚ) : ℚ :=
  let totalHostSeconds := totalRangeSeconds * (activeHostCount : ℚ)
  if 0 < totalHostSeconds then
    ((totalHostSeconds - downtimeTotal) / totalHostSeconds) * 100
  else 100

/-- The global overall availability of metrics.ts (lines 541-548 and
567-570): `hostFactor = hostCount || 1`, `totalHostSeconds =
(endSeconds - startSeconds) * hostFactor`, and the unclamped percentage
formula over the summed per-host downtime. -/
def overallAvailabilityMetrics (startSeconds endSeconds : ℤ) (hostCount : ℕ)
    (totalDowntimeSeconds : ℚ) : ℚ :=
  let hostFactor : ℕ := if hostCount = 0 then 1 else hostCount
  let totalHostSeconds : ℚ := ((endSeconds - startSeconds : ℤ) : ℚ) * (hostFactor : ℚ)
  if 0 < totalHostSeconds then
    ((totalHostSeconds - totalDowntimeSeconds) / totalHostSeconds) * 100
  else 100

/-! ## Per-host accumulators of the metrics.ts problem loop -/

/-- The per-host accumulators of `buildDashboardMetrics` in metrics.ts:
`hostEventCount`, `hostOpenCount` and the (unmerged) `hostDowntime` entry
of one host. -/
structure HostAcc where
  eventCount : ℕ
  openCount : ℕ
  downtimeTotal : ℚ
  downtimeBusiness : ℚ
  downtimeOff : ℚ
  deriving DecidableEq, Repr

/-- One execution of the `for (const host of problem.hosts ?? [])` body of
metrics.ts (lines 397-423) for a fixed host: bump the alert / open-alert
counters when the incident starts inside the range (`shouldCountAlert`),
and add the incident's clamped duration and business/off split to the
host's downtime sample when it overlaps the window. -/
def hostStep (cfg : ShiftConfig) (startSeconds endSeconds : ℤ) (p : MProblem)
    (acc : HostAcc) : HostAcc :=
  let acc1 :=
    if startsInsideRange startSeconds endSeconds p then
      { acc with
        eventCount := acc.eventCount + 1
        openCount := if p.rEventId = 0 then acc.openCount + 1 else acc.openCount }
    else acc
  if hasOverlap startSeconds endSeconds p then
    let shiftDurations :=
      splitSecondsByShift cfg (problemStart startSeconds p) (problemEnd endSeconds p)
    { acc1 with
      downtimeTotal := acc1.downtimeTotal + (durationSeconds startSeconds endSeconds p : ℚ)
      downtimeBusiness := acc1.downtimeBusiness + shiftDurations.1
      downtimeOff := acc1.downtimeOff + shiftDurations.2 }
  else acc1

/-- Folding the metrics.ts problem loop over a problem list for one fixed
host `h`: the loop body runs once per occurrence of `h` in
`problem.hosts`. -/
def processProblemsForHost (cfg : ShiftConfig) (startSeconds endSeconds : ℤ)
    (ps : List MProblem) (h : ℕ) : HostAcc :=
  ps.foldl
    (fun acc p =>
      p.hosts.foldl
        (fun acc' hostId => if hostId = h then hostStep cfg startSeconds endSeconds p acc' else acc')
        acc)
    ⟨0, 0, 0, 0, 0⟩

/-- The global `severityTotals` update of metrics.ts (lines 354-359): the
counter at the incident's severity level is bumped exactly when the
incident starts inside the range (`severityLevel` is never `null` in the
integer embedding). -/
def severityStep (startSeconds endSeconds : ℤ) (p : MProblem)
    (counter : ℕ → ℕ) : ℕ → ℕ :=
  if startsInsideRange startSeconds endSeconds p then
    fun s => if s = p.severity then counter s + 1 else counter s
  else counter

/-! ## Group severity histogram

The per-group `severityCounter` update of part_003 (lines 579-624, same
shape in metrics.ts lines 441-466): inside the loop over `problem.hosts`,
for every membership of the host, the matched group's counter at the
incident's severity level is bumped when `shouldCountAlert` holds — with
no deduplication by incident id (unlike `eventIds`/`openEventIds`). -/

/-- Processing one problem for the group `g`: the host loop and, nested,
the membership loop; `memberships h` is `hostGroupMap.get(h) ?? []`. -/
def groupSevStep (g : ℕ) (memberships : ℕ → List ℕ)
    (startSeconds endSeconds : ℤ) (p : MProblem) (counter : ℕ → ℕ) : ℕ → ℕ :=
  p.hosts.foldl
    (fun c hostId =>
      (memberships hostId).foldl
        (fun c' grp =>
          if grp = g ∧ startsInsideRange startSeconds endSeconds p then
            fun s => if s = p.severity then c' s + 1 else c' s
          else c')
        c)
    counter

/-- The group `g`'s severity histogram after walking every problem. -/
def groupSeverityCounter (g : ℕ) (memberships : ℕ → List ℕ)
    (startSeconds endSeconds : ℤ) (ps : List MProblem) : ℕ → ℕ :=
  ps.foldl (fun c p => groupSevStep g memberships startSeconds endSeconds p c)
    (fun _ => 0)

/-! ## Alert Classifier (`src/lib/reachability-report.ts` lines 434-521) -/

/-- `needle` is a prefix of `hay` (character-wise). -/
def listStartsWith : List Char → List Char → Bool
  | _, [] => true
  | [], _ :: _ => false
  | a :: as, b :: bs => a == b && listStartsWith as bs

/-- `needle` occurs as a contiguous substring of `hay` — JavaScript
`hay.includes(needle)`. -/
def charsContains : List Char → List Char → Bool
  | [], needle => needle.isEmpty
  | hay@(_ :: t), needle => listStartsWith hay needle || charsContains t needle

/-- JS `String.prototype.includes`. -/
def hsIncludes (hay needle : String) : Bool :=
  charsContains hay.data needle.data

/-- JS `String.prototype.toLowerCase` (character-wise `Char.toLower`; the
classifier keywords are all ASCII). -/
def strToLower (s : String) : String :=
  ⟨s.data.map Char.toLower⟩

/-- `Array.from(new Set(list))` — deduplication keeping first occurrences,
with the already-seen elements accumulated in `seen`. -/
def dedupFirstAux : List String → List String → List String
  | _, [] => []
  | seen, x :: xs =>
    if x ∈ seen then dedupFirstAux seen xs
    else x :: dedupFirstAux (x :: seen) xs

/-- `itemKeys = Array.from(new Set(items.map(key_).filter(Boolean)))`
(reachability-report.ts lines 438-444); the input list carries the `key_`
values, with missing keys rendered as `""` (dropped by `filter(Boolean)`). -/
def triggerItemKeys (items : List String) : List String :=
  dedupFirstAux [] (items.filter (fun k => k ≠ ""))

/-- `haystack = `${itemKeys.join(" ")} ${fallbackText}`.toLowerCase()`
(reachability-report.ts line 445). -/
def triggerHaystack (items : List String) (fallbackText : String) : String :=
  strToLower (String.intercalate " " (triggerItemKeys items) ++ " " ++ fallbackText)

/-- `isAgentAvailabilityCheck` (reachability-report.ts lines 483-501). -/
def isAgentAvailabilityCheck (itemKeys : List String) (haystack : String) : Bool :=
  itemKeys.any (fun key =>
    hsIncludes (strToLower key) "agent.ping" ||
      hsIncludes (strToLower key) "zabbix[host,agent,available]") ||
  (hsIncludes haystack "agent is not available" ||
    hsIncludes haystack "zabbix agent is not available" ||
    hsIncludes haystack "agent not available" ||
    hsIncludes haystack "agent unavailable" ||
    hsIncludes haystack "agent is unreachable" ||
    hsIncludes haystack "zabbix agent is unreachable")

/-- `isSnmpTrapSignal` (reachability-report.ts lines 517-521). -/
def isSnmpTrapSignal (itemKeys : List String) (haystack : String) : Bool :=
  itemKeys.any (fun key => hsIncludes (strToLower key) "snmptrap") ||
  (hsIncludes haystack "snmptrap" || hsIncludes haystack "snmp trap")

/-- `isReachabilitySignal` (reachability-report.ts lines 503-515):
agent-availability first, then the SNMP-trap exclusion, then the
icmp/snmp/uptime keywords. -/
def isReachabilitySignal (haystack : String)
    (agentAvailability snmpTrap : Bool) : Bool :=
  if agentAvailability then true
  else if snmpTrap then false
  else if hsIncludes haystack "icmpping" || hsIncludes haystack "icmp" then true
  else if hsIncludes haystack "snmp" then true
  else if hsIncludes haystack "system.uptime" || hsIncludes haystack "uptime" then true
  else false

/-- `{alertType, itemKeys, isReachability}` (reachability-report.ts
lines 89-93). -/
structure TriggerTypeInfo where
  alertType : String
  itemKeys : List String
  isReachability : Bool
  deriving DecidableEq, Repr

/-- `deriveAlertType(items, fallbackText)` (reachability-report.ts
lines 434-481). -/
def deriveAlertType (items : List String) (fallbackText : String) : TriggerTypeInfo :=
  let itemKeys := triggerItemKeys items
  let haystack := triggerHaystack items fallbackText
  let agentAvailability := isAgentAvailabilityCheck itemKeys haystack
  let snmpTrap := isSnmpTrapSignal itemKeys haystack
  let isReachability := isReachabilitySignal haystack agentAvailability snmpTrap
  if hsIncludes haystack "icmpping" || hsIncludes haystack "icmp" then
    ⟨"ICMP", itemKeys, isReachability⟩
  else if hsIncludes haystack "snmp" then ⟨"SNMP", itemKeys, isReachability⟩
  else if agentAvailability then ⟨"Zabbix agent", itemKeys, isReachability⟩
  else if hsIncludes haystack "http" || hsIncludes haystack "web" then
    ⟨"HTTP", itemKeys, isReachability⟩
  else if hsIncludes haystack "net.tcp" || hsIncludes haystack "tcp" ||
      hsIncludes haystack "udp" then ⟨"Porta/TCP", itemKeys, isReachability⟩
  else if hsIncludes haystack "log" then ⟨"Log", itemKeys, isReachability⟩
  else if hsIncludes haystack "system.uptime" then ⟨"Uptime", itemKeys, isReachability⟩
  else ⟨"Outro", itemKeys, isReachability⟩

/-! ## Report Paginator/Sorter (`src/lib/reachability-report.ts`) -/

/-- A reachability alert restricted to the fields the sorter reads:
`windowMinutes` (in-window downtime in minutes) and the
`new Date(openedAt).getTime()` value of its start, plus its event id as
payload. -/
structure RAlert where
  windowMinutes : ℚ
  openedMs : ℤ
  eventId : ℕ
  deriving DecidableEq, Repr

/-- The sort comparator of the reachability report (reachability-report.ts
lines 233-239): `a` sorts no later than `b` iff `a` has strictly larger
in-window downtime, or equal downtime and a no-earlier (more recent) start. -/
def alertLe (a b : RAlert) : Prop :=
  b.windowMinutes < a.windowMinutes ∨
    (a.windowMinutes = b.windowMinutes ∧ b.openedMs ≤ a.openedMs)

instance : DecidableRel alertLe := fun x y =>
  inferInstanceAs (Decidable (y.windowMinutes < x.windowMinutes ∨
    (x.windowMinutes = y.windowMinutes ∧ y.openedMs ≤ x.openedMs)))

instance : IsTotal RAlert alertLe := by
  constructor
  intro a b
  rcases lt_trichotomy a.windowMinutes b.windowMinutes with h | h | h
  · exact Or.inr (Or.inl h)
  · rcases le_total a.openedMs b.openedMs with h2 | h2
    · exact Or.inr (Or.inr ⟨h.symm, h2⟩)
    · exact Or.inl (Or.inr ⟨h, h2⟩)
  · exact Or.inl (Or.inl h)

instance : IsTrans RAlert alertLe := by
  constructor
  rintro _ _ _ (h1 | ⟨h1, h1o⟩) (h2 | ⟨h2, h2o⟩)
  · exact Or.inl (lt_trans h2 h1)
  · exact Or.inl (h2 ▸ h1)
  · exact Or.inl (h1 ▸ h2)
  · exact Or.inr ⟨h1.trans h2, le_trans h2o h1o⟩

/-- `alerts.sort(...)` — JS `Array.prototype.sort` is stable, embedded as
the (stable) insertion sort under the comparator order. -/
def sortAlerts (alerts : List RAlert) : List RAlert :=
  alerts.insertionSort alertLe

/-- The pagination output of `buildReachabilityReport`
(reachability-report.ts lines 241-267), restricted to the fields the
pagination claim mentions. -/
structure ReachabilityPage where
  page : ℤ
  pageSize : ℕ
  total : ℕ
  pages : ℕ
  alerts : List RAlert
  deriving DecidableEq, Repr

/-- Sorting and pagination of `buildReachabilityReport`
(reachability-report.ts lines 233-246, 262-266): `safePageSize =
max(1, pageSize)`; `pages = max(1, Math.ceil(total / safePageSize))`
(`= (total + s - 1) / s` in integer arithmetic); `safePage =
min(max(1, page), pages)`; the returned alerts are
`sorted.slice(startIndex, startIndex + safePageSize)` with
`startIndex = (safePage - 1) * safePageSize`. -/
def buildReachabilityPage (alerts : List RAlert) (page : ℤ) (pageSize : ℕ) :
    ReachabilityPage :=
  let sorted := sortAlerts alerts
  let total := alerts.length
  let safePageSize := max 1 pageSize
  let pages := max 1 ((total + safePageSize - 1) / safePageSize)
  let safePage := min (max 1 page) (pages : ℤ)
  let startIndex := ((safePage - 1) * (safePageSize : ℤ)).toNat
  { page := safePage
    pageSize := safePageSize
    total := total
    pages := pages
    alerts := (sorted.drop startIndex).take safePageSize }

/-! ## C1: interval merging -/

theorem covered_cons {t : ℤ} {i : Interval} {l : List Interval} :
    covered t (i :: l) ↔ (i.start ≤ t ∧ t ≤ i.«end») ∨ covered t l := by
  simp [covered, List.exists_mem_cons_iff]

theorem covered_nil {t : ℤ} : ¬ covered t [] := by
  simp [covered]

theorem mergeAux_start_le (rest : List Interval) (cur : Interval)
    (hp : (cur :: rest).Pairwise startLe) :
    ∀ j ∈ mergeAux cur rest, cur.start ≤ j.start := by
  induction rest generalizing cur with
  | nil =>
    intro j hj
    simp only [mergeAux, List.mem_singleton] at hj
    simp [hj]
  | cons i rest ih =>
    intro j hj
    rw [List.pairwise_cons] at hp
    simp only [mergeAux] at hj
    by_cases hle : i.start ≤ cur.«end»
    · rw [if_pos hle] at hj
      have hp' : (Interval.mk cur.start (max cur.«end» i.«end») :: rest).Pairwise startLe := by
        rw [List.pairwise_cons]
        exact ⟨fun j hj => hp.1 j (List.mem_cons_of_mem i hj), hp.2.tail⟩
      exact ih _ hp' j hj
    · rw [if_neg hle] at hj
      rcases List.mem_cons.mp hj with h | h
      · simp [h]
      · have := ih i hp.2 j h
        exact le_trans (hp.1 i (List.mem_cons_self i rest)) this

theorem mergeAux_wf (rest : List Interval) (cur : Interval)
    (hc : cur.start ≤ cur.«end») (hr : ∀ j ∈ rest, j.start ≤ j.«end») :
    ∀ j ∈ mergeAux cur rest, j.start ≤ j.«end» := by
  induction rest generalizing cur with
  | nil =>
    intro j hj
    simp only [mergeAux, List.mem_singleton] at hj
    simpa [hj] using hc
  | cons i rest ih =>
    intro j hj
    simp only [mergeAux] at hj
    by_cases hle : i.start ≤ cur.«end»
    · rw [if_pos hle] at hj
      refine ih _ ?_ (fun j hj => hr j (List.mem_cons_of_mem i hj)) j hj
      exact le_trans hc (le_max_left _ _)
    · rw [if_neg hle] at hj
      rcases List.mem_cons.mp hj with h | h
      · simpa [h] using hc
      · exact ih i (hr i (List.mem_cons_self i rest))
          (fun j hj => hr j (List.mem_cons_of_mem i hj)) j h

theorem mergeAux_disjoint (rest : List Interval) (cur : Interval)
    (hp : (cur :: rest).Pairwise startLe) :
    (mergeAux cur rest).Pairwise (fun a b => a.«end» < b.start) := by
  induction rest generalizing cur with
  | nil => simp [mergeAux]
  | cons i rest ih =>
    rw [List.pairwise_cons] at hp
    simp only [mergeAux]
    by_cases hle : i.start ≤ cur.«end»
    · rw [if_pos hle]
      refine ih _ ?_
      rw [List.pairwise_cons]
      exact ⟨fun j hj => hp.1 j (List.mem_cons_of_mem i hj), hp.2.tail⟩
    · rw [if_neg hle]
      rw [List.pairwise_cons]
      refine ⟨fun j hj => ?_, ih i hp.2⟩
      have := mergeAux_start_le rest i hp.2 j hj
      omega

theorem mergeAux_covered (rest : List Interval) (cur : Interval)
    (hp : (cur :: rest).Pairwise startLe) (t : ℤ) :
    covered t (mergeAux cur rest) ↔ covered t (cur :: rest) := by
  induction rest generalizing cur with
  | nil => simp [mergeAux]
  | cons i rest ih =>
    rw [List.pairwise_cons] at hp
    have hci : cur.start ≤ i.start := hp.1 i (List.mem_cons_self i rest)
    simp only [mergeAux]
    by_cases hle : i.start ≤ cur.«end»
    · rw [if_pos hle]
      have hp' : (Interval.mk cur.start (max cur.«end» i.«end») :: rest).Pairwise startLe := by
        rw [List.pairwise_cons]
        exact ⟨fun j hj => hp.1 j (List.mem_cons_of_mem i hj), hp.2.tail⟩
      rw [ih _ hp']
      rw [covered_cons, covered_cons, covered_cons]
      constructor
      · rintro (⟨h1, h2⟩ | hC)
        · simp only at h1 h2
          rcases le_or_lt t cur.«end» with h3 | h3
          · exact Or.inl ⟨h1, h3⟩
          · exact Or.inr (Or.inl ⟨by omega, by omega⟩)
        · exact Or.inr (Or.inr hC)
      · rintro (⟨h1, h2⟩ | ⟨h1, h2⟩ | hC)
        · exact Or.inl ⟨h1, by simp only; omega⟩
        · exact Or.inl ⟨by simp only; omega, by simp only; omega⟩
        · exact Or.inr hC
    · rw [if_neg hle]
      rw [covered_cons, covered_cons]
      exact or_congr_right (ih i hp.2)

/-- C1. `mergeIntervals` returns a list sorted by `start`, pairwise
non-overlapping (each merged interval ends strictly before the next starts),
covering exactly the same set of time instants as its input, provided each
input interval satisfies `end ≥ start`. -/
theorem mergeIntervals_spec (l : List Interval)
    (hwf : ∀ i ∈ l, i.start ≤ i.«end») :
    (mergeIntervals l).Pairwise startLe ∧
    (mergeIntervals l).Pairwise (fun a b => a.«end» < b.start) ∧
    ∀ t : ℤ, covered t (mergeIntervals l) ↔ covered t l := by
  have hperm : List.Perm (sortByStart l) l := List.perm_insertionSort startLe l
  have hsorted : (sortByStart l).Pairwise startLe :=
    List.sorted_insertionSort startLe l
  have hwf' : ∀ i ∈ sortByStart l, i.start ≤ i.«end» := fun i hi =>
    hwf i (hperm.subset hi)
  have hcl : ∀ t, covered t (sortByStart l) ↔ covered t l := by
    intro t
    constructor
    · rintro ⟨i, hi, h⟩; exact ⟨i, hperm.subset hi, h⟩
    · rintro ⟨i, hi, h⟩; exact ⟨i, hperm.symm.subset hi, h⟩
  unfold mergeIntervals
  cases hs : sortByStart l with
  | nil =>
    refine ⟨List.Pairwise.nil, List.Pairwise.nil, fun t => ?_⟩
    rw [hs] at hcl
    rw [← hcl t]
  | cons first rest =>
    rw [hs] at hsorted hwf' hcl
    have hdisj := mergeAux_disjoint rest first hsorted
    have hwfout := mergeAux_wf rest first
      (hwf' first (List.mem_cons_self first rest))
      (fun j hj => hwf' j (List.mem_cons_of_mem first hj))
    refine ⟨?_, hdisj, fun t => (mergeAux_covered rest first hsorted t).trans (hcl t)⟩
    exact hdisj.imp_of_mem (fun ha _hb hr => le_trans (hwfout _ ha) (le_of_lt hr))

/-- Witness for C1: the spec's own example, intervals `[0,100]` and
`[50,150]` merge to `[0,150]` (total 150, not 200). -/
theorem mergeIntervals_spec_witness :
    (∀ i ∈ [Interval.mk 0 100, Interval.mk 50 150], i.start ≤ i.«end») ∧
    mergeIntervals [Interval.mk 0 100, Interval.mk 50 150] = [Interval.mk 0 150] ∧
    ((mergeIntervals [Interval.mk 0 100, Interval.mk 50 150]).Pairwise startLe ∧
      (mergeIntervals [Interval.mk 0 100, Interval.mk 50 150]).Pairwise
        (fun a b => a.«end» < b.start) ∧
      ∀ t : ℤ, covered t (mergeIntervals [Interval.mk 0 100, Interval.mk 50 150]) ↔
        covered t [Interval.mk 0 100, Interval.mk 50 150]) :=
  ⟨by decide, by decide, mergeIntervals_spec _ (by decide)⟩

/-! ## C6: shift split -/

theorem splitLoop_sum (cfg : ShiftConfig) (hstep : 0 < cfg.stepMs) :
    ∀ (fuel : ℕ) (cursor limit : ℤ), cursor ≤ limit →
      (limit - cursor).toNat ≤ fuel →
      (splitLoop cfg fuel cursor limit).1 + (splitLoop cfg fuel cursor limit).2 =
        ((limit - cursor : ℤ) : ℚ) / 1000 := by
  intro fuel
  induction fuel with
  | zero =>
    intro cursor limit hcl hfuel
    have : limit = cursor := by omega
    simp [splitLoop, this]
  | succ fuel ih =>
    intro cursor limit hcl hfuel
    by_cases hlt : cursor < limit
    · have hnext : min (cursor + (cfg.stepMs : ℤ)) limit ≤ limit := min_le_right _ _
      have hadv : cursor < min (cursor + (cfg.stepMs : ℤ)) limit := by
        have : 0 < (cfg.stepMs : ℤ) := by exact_mod_cast hstep
        omega
      have hrec := ih (min (cursor + (cfg.stepMs : ℤ)) limit) limit hnext (by omega)
      simp only [splitLoop, if_pos hlt]
      by_cases hb : cfg.businessStartMinutes ≤ cfg.minutesOfDay cursor ∧
          cfg.minutesOfDay cursor < cfg.businessEndMinutes
      · rw [if_pos hb]
        simp only at hrec ⊢
        rw [add_assoc, hrec]
        rw [div_add_div_same]
        congr 1
        push_cast
        ring
      · rw [if_neg hb]
        simp only at hrec ⊢
        rw [add_left_comm, hrec]
        rw [div_add_div_same]
        congr 1
        push_cast
        ring
    · have : limit = cursor := by omega
      simp [splitLoop, hlt, this]

/-- C6. For every interval with integer-second endpoints and every
configuration with a positive shift step, `splitSecondsByShift` returns
buckets with `business + off = end - start` (exactly, in `ℚ`), and returns
`{business: 0, off: 0}` whenever `end ≤ start`. -/
theorem splitSecondsByShift_spec (cfg : ShiftConfig) (hstep : 0 < cfg.stepMs)
    (startSeconds endSeconds : ℤ) :
    (endSeconds ≤ startSeconds → splitSecondsByShift cfg startSeconds endSeconds = (0, 0)) ∧
    (startSeconds ≤ endSeconds →
      (splitSecondsByShift cfg startSeconds endSeconds).1 +
        (splitSecondsByShift cfg startSeconds endSeconds).2 =
        ((endSeconds - startSeconds : ℤ) : ℚ)) := by
  constructor
  · intro h
    simp [splitSecondsByShift, h]
  · intro h
    by_cases heq : endSeconds ≤ startSeconds
    · have : endSeconds = startSeconds := le_antisymm heq h
      simp [splitSecondsByShift, this]
    · unfold splitSecondsByShift
      rw [if_neg heq]
      have hml : startSeconds * 1000 ≤ endSeconds * 1000 := by nlinarith
      rw [splitLoop_sum cfg hstep _ _ _ hml (le_refl _)]
      rw [show endSeconds * 1000 - startSeconds * 1000 = (endSeconds - startSeconds) * 1000 by ring]
      push_cast
      rw [mul_div_assoc]
      norm_num

/-- Witness for C6: a 100-second interval `[0, 100]` with a 1-minute shift
step splits into buckets summing to 100 (here business starts at minute 0
of the day and the stub clock maps every instant to minute 30, so the whole
interval lands in the business bucket). -/
theorem splitSecondsByShift_spec_witness :
    (0 < (⟨60000, 0, 1440, fun _ => 30⟩ : ShiftConfig).stepMs) ∧
    ((0 : ℤ) ≤ 100 →
      (splitSecondsByShift ⟨60000, 0, 1440, fun _ => 30⟩ 0 100).1 +
        (splitSecondsByShift ⟨60000, 0, 1440, fun _ => 30⟩ 0 100).2 =
        (((100 : ℤ) - 0 : ℤ) : ℚ)) :=
  ⟨by decide, (splitSecondsByShift_spec ⟨60000, 0, 1440, fun _ => 30⟩ (by decide) 0 100).2⟩


/-! ## C3: availability range -/

/-- C3 (amended). The availability formula defaults to 100 when the window
is empty, equals 100 exactly when downtime is zero, never exceeds 100 for
nonnegative downtime, equals 0 when downtime equals the window length —
but it is *not* clamped below: it is strictly negative whenever downtime
exceeds the window length. -/
theorem availabilityPct_spec (w d : ℚ) :
    (w ≤ 0 → availabilityPct w d = 100) ∧
    (d = 0 → availabilityPct w d = 100) ∧
    (0 ≤ d → availabilityPct w d ≤ 100) ∧
    (0 < w → d = w → availabilityPct w d = 0) ∧
    (0 < w → w < d → availabilityPct w d < 0) := by
  unfold availabilityPct
  refine ⟨fun h => ?_, fun h => ?_, fun h => ?_, fun hw hd => ?_, fun hw hd => ?_⟩
  · rw [if_neg (not_lt.mpr h)]
  · subst h
    by_cases hw : 0 < w
    · rw [if_pos hw, sub_zero, div_self (ne_of_gt hw), one_mul]
    · rw [if_neg hw]
  · by_cases hw : 0 < w
    · rw [if_pos hw]
      have h1 : (w - d) / w ≤ 1 := by
        rw [div_le_one hw]
        linarith
      linarith
    · rw [if_neg hw]
  · rw [if_pos hw, hd, sub_self, zero_div, zero_mul]
  · rw [if_pos hw]
    have h1 : (w - d) / w < 0 := div_neg_of_neg_of_pos (by linarith) hw
    linarith

/-- Witness for C3's amended statement: `availabilityPct 100 0 = 100` and
`availabilityPct 100 250 < 0`. -/
theorem availabilityPct_spec_witness :
    availabilityPct 100 0 = 100 ∧ availabilityPct 100 250 < 0 :=
  ⟨(availabilityPct_spec 100 0).2.1 rfl,
    (availabilityPct_spec 100 250).2.2.2.2 (by norm_num) (by norm_num)⟩

/-- Counterexample to C3 as stated: in the metrics.ts builder the per-host
downtime is accumulated per incident *without* interval merging, so two
still-open incidents covering the window `[0, 100)` on the single host `7`
(clocks 0 and 5, no recovery) accumulate `100 + 95 = 195` seconds of
downtime against a 100-host-second window, and the produced overall
availability is negative — not clamped to `[0, 100]`. -/
theorem availabilityClamped_cex :
    overallAvailabilityMetrics 0 100 1
      ((processProblemsForHost ⟨100000000, 0, 1440, fun _ => 0⟩ 0 100
        [⟨0, 0, none, 4, [], [7]⟩, ⟨5, 0, none, 3, [], [7]⟩] 7).downtimeTotal) < 0 := by
  have h : (processProblemsForHost ⟨100000000, 0, 1440, fun _ => 0⟩ 0 100
      [⟨0, 0, none, 4, [], [7]⟩, ⟨5, 0, none, 3, [], [7]⟩] 7).downtimeTotal = 195 := by
    norm_num [processProblemsForHost, hostStep, startsInsideRange, hasOverlap,
      durationSeconds, problemStart, problemEnd, resolvedSeconds]
  rw [h]
  norm_num [overallAvailabilityMetrics]

/-! ## C4: resolution delta -/

/-- C4 (amended, the metrics.ts builder). For every incident, the
resolution delta equals `max(0, min(recoveryClock ?? windowEnd, windowEnd)
- clampedStart)`; an incident with no recovery event has its resolution
run to the window end, and when it overlaps the window that value is
pushed into the resolution-durations sample and is bounded by the window
length. -/
theorem resolutionDelta_spec (startSeconds endSeconds : ℤ) (p : MProblem)
    (ps : List MProblem) (hmem : p ∈ ps) (hopen : resolvedSeconds p = none)
    (hov : hasOverlap startSeconds endSeconds p) :
    resolutionDelta startSeconds endSeconds p =
      max 0 (min ((resolvedSeconds p).getD endSeconds) endSeconds -
        max p.clock startSeconds) ∧
    resolutionDelta startSeconds endSeconds p =
      endSeconds - max p.clock startSeconds ∧
    resolutionDelta startSeconds endSeconds p ∈
      resolutionDurations startSeconds endSeconds ps ∧
    (startSeconds ≤ endSeconds →
      resolutionDelta startSeconds endSeconds p ≤ endSeconds - startSeconds) := by
  have hdef : resolutionDelta startSeconds endSeconds p =
      max 0 (min ((resolvedSeconds p).getD endSeconds) endSeconds -
        max p.clock startSeconds) := rfl
  have hend : problemEnd endSeconds p = endSeconds := by
    unfold problemEnd
    rw [hopen]
    simp
  have hov' : 0 < durationSeconds startSeconds endSeconds p := hov
  have heq : resolutionDelta startSeconds endSeconds p =
      endSeconds - max p.clock startSeconds := by
    unfold resolutionDelta durationSeconds problemStart at hov' ⊢
    rw [hend] at hov' ⊢
    omega
  refine ⟨hdef, heq, ?_, fun hse => ?_⟩
  · unfold resolutionDurations
    exact List.mem_filterMap.mpr ⟨p, hmem, by rw [if_pos hov]⟩
  · rw [heq]
    omega

/-- Witness for C4: the spec's scenario 1 — incident with `clock = 0`, no
acknowledgments, no recovery, window `[-100, 1000)` — yields resolution
1000 seconds, bounded by the 1100-second window. -/
theorem resolutionDelta_spec_witness :
    ((⟨0, 0, none, 3, [], [1]⟩ : MProblem) ∈ [(⟨0, 0, none, 3, [], [1]⟩ : MProblem)]) ∧
    resolvedSeconds (⟨0, 0, none, 3, [], [1]⟩ : MProblem) = none ∧
    hasOverlap (-100) 1000 (⟨0, 0, none, 3, [], [1]⟩ : MProblem) ∧
    (resolutionDelta (-100) 1000 (⟨0, 0, none, 3, [], [1]⟩ : MProblem) =
        max 0 (min ((resolvedSeconds (⟨0, 0, none, 3, [], [1]⟩ : MProblem)).getD 1000) 1000 -
          max (⟨0, 0, none, 3, [], [1]⟩ : MProblem).clock (-100)) ∧
      resolutionDelta (-100) 1000 (⟨0, 0, none, 3, [], [1]⟩ : MProblem) =
        1000 - max (⟨0, 0, none, 3, [], [1]⟩ : MProblem).clock (-100) ∧
      resolutionDelta (-100) 1000 (⟨0, 0, none, 3, [], [1]⟩ : MProblem) ∈
        resolutionDurations (-100) 1000 [(⟨0, 0, none, 3, [], [1]⟩ : MProblem)] ∧
      ((-100 : ℤ) ≤ 1000 →
        resolutionDelta (-100) 1000 (⟨0, 0, none, 3, [], [1]⟩ : MProblem) ≤ 1000 - (-100))) :=
  ⟨by decide, by decide, by decide,
    resolutionDelta_spec (-100) 1000 _ _ (by decide) (by decide) (by decide)⟩

/-- Counterexample to C4 as stated: in the part_003 builder, a still-open
incident overlapping the window (clock 0 inside `[0, 1000)`, no recovery)
contributes *nothing* to the resolution average — its
`resolutionDeltaForMetrics` is `null`, so `resolutionDurations` stays
empty even though the incident overlaps the window for 1000 seconds. -/
theorem resolutionAverageOpen_cex :
    resolutionDurationsV3 0 1000 [(⟨0, 0, none, 3, [], [1]⟩ : MProblem)] = [] ∧
    0 < durationSeconds 0 1000 (⟨0, 0, none, 3, [], [1]⟩ : MProblem) := by
  decide

/-! ## C5: response delta -/

/-- C5 (amended, the open-problems mapper). For incidents whose
acknowledgments are sorted by clock: with a second acknowledgment the
response delta is `max(0, secondAck - start)`; with exactly one it equals
the detection delta; with none it is `null`. (`start` is the incident's
raw clock — the open-problems path has no query window to clamp to.) -/
theorem mapProblemResponse_spec (p : MProblem) :
    (∀ a b rest, sortedAcks p = a :: b :: rest →
      mapProblemResponse p = some (max 0 (b - p.clock))) ∧
    (∀ a, sortedAcks p = [a] →
      mapProblemResponse p = mapProblemDetection p ∧
        mapProblemResponse p = some (max 0 (a - p.clock))) ∧
    (sortedAcks p = [] →
      mapProblemResponse p = none ∧ mapProblemDetection p = none) := by
  refine ⟨fun a b rest h => ?_, fun a h => ?_, fun h => ?_⟩
  · unfold mapProblemResponse
    rw [h]
  · constructor
    · unfold mapProblemResponse
      rw [h]
    · unfold mapProblemResponse mapProblemDetection
      rw [h]
  · constructor
    · unfold mapProblemResponse mapProblemDetection
      rw [h]
    · unfold mapProblemDetection
      rw [h]

/-- Witness for C5: the spec's scenario 3 — first acknowledgment at
`T0+30`, second at `T0+90`, incident start `T0 = 0` — yields a response
delta of 90 seconds. -/
theorem mapProblemResponse_spec_witness :
    sortedAcks (⟨0, 0, none, 3, [30, 90], [1]⟩ : MProblem) = [30, 90] ∧
    mapProblemResponse (⟨0, 0, none, 3, [30, 90], [1]⟩ : MProblem) =
      some (max 0 (90 - (⟨0, 0, none, 3, [30, 90], [1]⟩ : MProblem).clock)) :=
  ⟨by decide,
    (mapProblemResponse_spec (⟨0, 0, none, 3, [30, 90], [1]⟩ : MProblem)).1
      30 90 [] (by decide)⟩

/-- Counterexample to C5 as stated: the response delta that
`buildDashboardMetrics` pushes into the response averages (metrics.ts
lines 374-382, part_003 lines 468-476) is always a copy of the detection
delta. For the incident with acknowledgments at 10 and 50, clock 0 and
window `[0, 100)`, the claim's formula gives `max(0, 50 - 0) = 50`, but
the code produces 10. -/
theorem responseDeltaSecondAck_cex :
    sortedAcks (⟨0, 0, none, 3, [10, 50], [1]⟩ : MProblem) = [10, 50] ∧
    responseDelta 0 100 (⟨0, 0, none, 3, [10, 50], [1]⟩ : MProblem) = some 10 ∧
    max 0 ((50 : ℤ) - problemStart 0 (⟨0, 0, none, 3, [10, 50], [1]⟩ : MProblem)) = 50 ∧
    responseDelta 0 100 (⟨0, 0, none, 3, [10, 50], [1]⟩ : MProblem) ≠ some 50 := by
  decide

/-! ## C2: group availability -/

theorem foldl_add_total (f : ℕ → ℚ) :
    ∀ (l : List ℕ) (init : ℚ),
      l.foldl (fun acc h => acc + f h) init = init + (l.map f).sum := by
  intro l
  induction l with
  | nil => intro init; simp
  | cons x rest ih =>
    intro init
    rw [List.foldl_cons, ih, List.map_cons, List.sum_cons]
    ring

/-- C2. The group availability of `buildGroupSummaries` uses
`window_seconds = totalRangeSeconds × activeHostCount` and
`downtime_seconds = Σ` over the group's active member hosts of their
merged, clamped per-host downtime (through `buildHostDowntime`, i.e.
`mergeIntervals` + shift split per host). -/
theorem groupAvailability_spec (cfg : ShiftConfig) (totalRangeSeconds : ℚ)
    (active : List ℕ) (hostIntervals : ℕ → List Interval)
    (hpos : 0 < totalRangeSeconds * (active.length : ℚ)) :
    groupAvailabilityPct totalRangeSeconds active.length
        (accumulateGroupDowntime active
          (fun h => buildHostDowntimeEntry cfg (hostIntervals h))) =
      100 * ((totalRangeSeconds * (active.length : ℚ) -
          accumulateGroupDowntime active
            (fun h => buildHostDowntimeEntry cfg (hostIntervals h))) /
        (totalRangeSeconds * (active.length : ℚ))) ∧
    accumulateGroupDowntime active
        (fun h => buildHostDowntimeEntry cfg (hostIntervals h)) =
      (active.map (fun h => (buildHostDowntimeEntry cfg (hostIntervals h)).total)).sum := by
  constructor
  · unfold groupAvailabilityPct
    rw [if_pos hpos]
    ring
  · unfold accumulateGroupDowntime
    rw [foldl_add_total, zero_add]

/-- Witness for C2: the spec's scenario 4 — a group with 2 active hosts,
period length 1000 s, host 1 with a single merged 100-second downtime
interval and host 2 with none — has availability
`100*(2000-100)/2000 = 95`. -/
theorem groupAvailability_spec_witness :
    (0 < (1000 : ℚ) * (([1, 2] : List ℕ).length : ℚ)) ∧
    groupAvailabilityPct 1000 ([1, 2] : List ℕ).length
        (accumulateGroupDowntime [1, 2]
          (fun h => buildHostDowntimeEntry ⟨100000000, 0, 1440, fun _ => 30⟩
            (if h = 1 then [Interval.mk 0 100] else []))) = 95 ∧
    groupAvailabilityPct 1000 ([1, 2] : List ℕ).length
        (accumulateGroupDowntime [1, 2]
          (fun h => buildHostDowntimeEntry ⟨100000000, 0, 1440, fun _ => 30⟩
            (if h = 1 then [Interval.mk 0 100] else []))) =
      100 * (((1000 : ℚ) * (([1, 2] : List ℕ).length : ℚ) -
          accumulateGroupDowntime [1, 2]
            (fun h => buildHostDowntimeEntry ⟨100000000, 0, 1440, fun _ => 30⟩
              (if h = 1 then [Interval.mk 0 100] else []))) /
        ((1000 : ℚ) * (([1, 2] : List ℕ).length : ℚ))) := by
  have hD : accumulateGroupDowntime [1, 2]
      (fun h => buildHostDowntimeEntry ⟨100000000, 0, 1440, fun _ => 30⟩
        (if h = 1 then [Interval.mk 0 100] else [])) = 100 := by
    norm_num [accumulateGroupDowntime, buildHostDowntimeEntry, mergeIntervals,
      sortByStart, mergeAux, startLe]
  refine ⟨by norm_num, ?_, (groupAvailability_spec _ 1000 [1, 2] _ (by norm_num)).1⟩
  rw [hD]
  norm_num [groupAvailabilityPct]

/-! ## C9: group severity histogram -/

theorem sevFoldInner (g sev : ℕ) (cond : Prop) [Decidable cond] :
    ∀ (grps : List ℕ) (c : ℕ → ℕ) (s : ℕ),
      (grps.foldl
        (fun c' grp =>
          if grp = g ∧ cond then (fun t => if t = sev then c' t + 1 else c' t) else c')
        c) s =
      c s + (if cond ∧ s = sev then grps.count g else 0) := by
  intro grps
  induction grps with
  | nil => intro c s; simp
  | cons x rest ih =>
    intro c s
    rw [List.foldl_cons, ih]
    by_cases hc : cond
    · by_cases hx : x = g
      · rw [if_pos ⟨hx, hc⟩]
        by_cases hs : s = sev
        · simp only [hs, if_pos rfl, hc, true_and, if_pos trivial]
          rw [List.count_cons]
          simp [hx]
          omega
        · simp only [if_neg hs, hc, true_and]
      · rw [if_neg (by tauto)]
        rw [List.count_cons]
        simp [hx]
    · rw [if_neg (by tauto)]
      simp [hc]

theorem sevFoldHosts (g sev : ℕ) (memberships : ℕ → List ℕ) (cond : Prop)
    [Decidable cond] :
    ∀ (hostIds : List ℕ) (c : ℕ → ℕ) (s : ℕ),
      (hostIds.foldl
        (fun c hostId =>
          (memberships hostId).foldl
            (fun c' grp =>
              if grp = g ∧ cond then (fun t => if t = sev then c' t + 1 else c' t) else c')
            c)
        c) s =
      c s + (if cond ∧ s = sev then
        (hostIds.map (fun h => (memberships h).count g)).sum else 0) := by
  intro hostIds
  induction hostIds with
  | nil => intro c s; simp
  | cons x rest ih =>
    intro c s
    rw [List.foldl_cons, ih, sevFoldInner, List.map_cons, List.sum_cons]
    by_cases hcs : cond ∧ s = sev
    · simp only [if_pos hcs]
      omega
    · simp only [if_neg hcs]

theorem groupSevStep_count (g : ℕ) (memberships : ℕ → List ℕ)
    (startSeconds endSeconds : ℤ) (p : MProblem) (counter : ℕ → ℕ) (s : ℕ) :
    groupSevStep g memberships startSeconds endSeconds p counter s =
      counter s + (if startsInsideRange startSeconds endSeconds p ∧ s = p.severity then
        (p.hosts.map (fun h => (memberships h).count g)).sum else 0) :=
  sevFoldHosts g p.severity memberships _ p.hosts counter s

theorem sevFoldProblems (g : ℕ) (memberships : ℕ → List ℕ)
    (startSeconds endSeconds : ℤ) :
    ∀ (ps : List MProblem) (c : ℕ → ℕ) (s : ℕ),
      (ps.foldl (fun c p => groupSevStep g memberships startSeconds endSeconds p c) c) s =
        c s + (ps.map (fun p =>
          if startsInsideRange startSeconds endSeconds p ∧ s = p.severity then
            (p.hosts.map (fun h => (memberships h).count g)).sum
          else 0)).sum := by
  intro ps
  induction ps with
  | nil => intro c s; simp
  | cons p rest ih =>
    intro c s
    rw [List.foldl_cons, ih, groupSevStep_count, List.map_cons, List.sum_cons]
    omega

/-- C9 (amended). The per-group severity histogram counts each incident
that starts inside the window once per (host, group-membership) pair, not
once per incident: the counter at level `s` equals the sum, over incidents
starting inside the window with severity `s`, of the number of the
incident's hosts' memberships matching the group. An incident touching
`k` hosts of the group therefore adds `k`. -/
theorem groupSeverityCounter_spec (g : ℕ) (memberships : ℕ → List ℕ)
    (startSeconds endSeconds : ℤ) (ps : List MProblem) (s : ℕ) :
    groupSeverityCounter g memberships startSeconds endSeconds ps s =
      (ps.map (fun p =>
        if startsInsideRange startSeconds endSeconds p ∧ s = p.severity then
          (p.hosts.map (fun h => (memberships h).count g)).sum
        else 0)).sum := by
  unfold groupSeverityCounter
  rw [sevFoldProblems]
  omega

/-- Counterexample to C9 as stated: a single severity-3 incident starting
inside the window with two hosts that both belong to group 1 bumps the
group's severity-3 counter to 2, not 1. -/
theorem groupSeverityPerIncident_cex :
    startsInsideRange 0 100 (⟨5, 0, none, 3, [], [10, 11]⟩ : MProblem) ∧
    groupSeverityCounter 1 (fun _ => [1]) 0 100
      [(⟨5, 0, none, 3, [], [10, 11]⟩ : MProblem)] 3 = 2 := by
  decide

/-! ## C10: incidents clamped into the window -/

/-- C10. An incident whose raw clock lies before the window start but
whose lifetime overlaps the window (`problemEnd > periodStart`) fails
`startsInsideRange`, so the per-host alert counter, the per-host
open-alert counter, the global severity histogram and the per-group
severity histogram are all left unchanged — yet its positive clamped
duration is added to the host's downtime, which strictly lowers the
availability percentage for any positive window. -/
theorem clampedIncident_spec (cfg : ShiftConfig) (startSeconds endSeconds : ℤ)
    (p : MProblem) (acc : HostAcc) (counter : ℕ → ℕ)
    (hclock : p.clock < startSeconds) (hov : startSeconds < problemEnd endSeconds p) :
    ¬ startsInsideRange startSeconds endSeconds p ∧
    (hostStep cfg startSeconds endSeconds p acc).eventCount = acc.eventCount ∧
    (hostStep cfg startSeconds endSeconds p acc).openCount = acc.openCount ∧
    severityStep startSeconds endSeconds p counter = counter ∧
    (∀ g memberships,
      groupSevStep g memberships startSeconds endSeconds p counter = counter) ∧
    0 < durationSeconds startSeconds endSeconds p ∧
    (hostStep cfg startSeconds endSeconds p acc).downtimeTotal =
      acc.downtimeTotal + ((durationSeconds startSeconds endSeconds p : ℤ) : ℚ) ∧
    (∀ w : ℚ, 0 < w →
      availabilityPct w ((hostStep cfg startSeconds endSeconds p acc).downtimeTotal) <
        availabilityPct w acc.downtimeTotal) := by
  have hnin : ¬ startsInsideRange startSeconds endSeconds p := by
    unfold startsInsideRange
    omega
  have hdur : 0 < durationSeconds startSeconds endSeconds p := by
    unfold durationSeconds problemStart
    omega
  have hovp : hasOverlap startSeconds endSeconds p := hdur
  have h1 : hostStep cfg startSeconds endSeconds p acc =
      { acc with
        downtimeTotal :=
          acc.downtimeTotal + ((durationSeconds startSeconds endSeconds p : ℤ) : ℚ)
        downtimeBusiness := acc.downtimeBusiness +
          (splitSecondsByShift cfg (problemStart startSeconds p) (problemEnd endSeconds p)).1
        downtimeOff := acc.downtimeOff +
          (splitSecondsByShift cfg (problemStart startSeconds p) (problemEnd endSeconds p)).2 } := by
    unfold hostStep
    rw [if_neg hnin, if_pos hovp]
  have hgrow : acc.downtimeTotal <
      acc.downtimeTotal + ((durationSeconds startSeconds endSeconds p : ℤ) : ℚ) := by
    have : (0 : ℚ) < ((durationSeconds startSeconds endSeconds p : ℤ) : ℚ) := by
      exact_mod_cast hdur
    linarith
  refine ⟨hnin, by rw [h1], by rw [h1], ?_, fun g memberships => ?_, hdur, by rw [h1],
    fun w hw => ?_⟩
  · unfold severityStep
    rw [if_neg hnin]
  · funext s
    rw [groupSevStep_count]
    simp [hnin]
  · rw [h1]
    unfold availabilityPct
    rw [if_pos hw, if_pos hw]
    have hlt : (w - (acc.downtimeTotal +
        ((durationSeconds startSeconds endSeconds p : ℤ) : ℚ))) / w <
        (w - acc.downtimeTotal) / w :=
      (div_lt_div_iff_of_pos_right hw).mpr (by linarith)
    exact mul_lt_mul_of_pos_right hlt (by norm_num)

/-- Witness for C10: `clock = -50`, window `[0, 100)`, still open — the
incident is clamped to `[0, 100)` and contributes 100 s of downtime while
being excluded from every counter. -/
theorem clampedIncident_spec_witness :
    ((⟨-50, 0, none, 2, [], [4]⟩ : MProblem).clock < 0) ∧
    ((0 : ℤ) < problemEnd 100 (⟨-50, 0, none, 2, [], [4]⟩ : MProblem)) ∧
    (¬ startsInsideRange 0 100 (⟨-50, 0, none, 2, [], [4]⟩ : MProblem) ∧
      (hostStep ⟨100000000, 0, 1440, fun _ => 0⟩ 0 100
        (⟨-50, 0, none, 2, [], [4]⟩ : MProblem) ⟨0, 0, 0, 0, 0⟩).eventCount =
        (⟨0, 0, 0, 0, 0⟩ : HostAcc).eventCount ∧
      (hostStep ⟨100000000, 0, 1440, fun _ => 0⟩ 0 100
        (⟨-50, 0, none, 2, [], [4]⟩ : MProblem) ⟨0, 0, 0, 0, 0⟩).openCount =
        (⟨0, 0, 0, 0, 0⟩ : HostAcc).openCount ∧
      severityStep 0 100 (⟨-50, 0, none, 2, [], [4]⟩ : MProblem) (fun _ => 0) =
        (fun _ => 0) ∧
      (∀ g memberships,
        groupSevStep g memberships 0 100 (⟨-50, 0, none, 2, [], [4]⟩ : MProblem)
          (fun _ => 0) = (fun _ => 0)) ∧
      0 < durationSeconds 0 100 (⟨-50, 0, none, 2, [], [4]⟩ : MProblem) ∧
      (hostStep ⟨100000000, 0, 1440, fun _ => 0⟩ 0 100
        (⟨-50, 0, none, 2, [], [4]⟩ : MProblem) ⟨0, 0, 0, 0, 0⟩).downtimeTotal =
        (⟨0, 0, 0, 0, 0⟩ : HostAcc).downtimeTotal +
          ((durationSeconds 0 100 (⟨-50, 0, none, 2, [], [4]⟩ : MProblem) : ℤ) : ℚ) ∧
      (∀ w : ℚ, 0 < w →
        availabilityPct w
            ((hostStep ⟨100000000, 0, 1440, fun _ => 0⟩ 0 100
              (⟨-50, 0, none, 2, [], [4]⟩ : MProblem) ⟨0, 0, 0, 0, 0⟩).downtimeTotal) <
          availabilityPct w (⟨0, 0, 0, 0, 0⟩ : HostAcc).downtimeTotal)) :=
  ⟨by decide, by decide,
    clampedIncident_spec ⟨100000000, 0, 1440, fun _ => 0⟩ 0 100 _ _ _
      (by decide) (by decide)⟩

/-! ## C7: reachability report sorting and pagination -/

theorem join_take_slices {α : Type} (l : List α) (s : ℕ) :
    ∀ n : ℕ,
      ((List.range n).map (fun k => (l.drop (k * s)).take s)).flatten = l.take (n * s) := by
  intro n
  induction n with
  | zero => simp
  | succ n ih =>
    rw [List.range_succ, List.map_append, List.flatten_append]
    simp only [List.map_cons, List.map_nil, List.flatten_cons, List.flatten_nil,
      List.append_nil]
    rw [ih, Nat.succ_mul, List.take_add]

/-- C7. For a positive page size: `pages = max(1, ⌈total / pageSize⌉)`; the
requested page is clamped into `[1, pages]`; the returned alerts are the
slice `[(page-1)*pageSize, page*pageSize)` of the sorted list;
concatenating all pages in order reproduces the full sorted list; and the
sorted list is ordered descending by in-window downtime with ties broken
by most-recent start descending (`alertLe`), being a permutation of the
candidate alerts. -/
theorem buildReachabilityPage_spec (alerts : List RAlert) (page : ℤ)
    (pageSize : ℕ) (hps : 0 < pageSize) :
    (buildReachabilityPage alerts page pageSize).pages =
      max 1 ((alerts.length + pageSize - 1) / pageSize) ∧
    1 ≤ (buildReachabilityPage alerts page pageSize).page ∧
    (buildReachabilityPage alerts page pageSize).page ≤
      ((buildReachabilityPage alerts page pageSize).pages : ℤ) ∧
    (buildReachabilityPage alerts page pageSize).alerts =
      ((sortAlerts alerts).drop
        ((((buildReachabilityPage alerts page pageSize).page - 1) *
          (pageSize : ℤ)).toNat)).take pageSize ∧
    ((List.range (buildReachabilityPage alerts page pageSize).pages).map
        (fun k => ((sortAlerts alerts).drop (k * pageSize)).take pageSize)).flatten =
      sortAlerts alerts ∧
    (sortAlerts alerts).Pairwise alertLe ∧
    List.Perm (sortAlerts alerts) alerts := by
  have hsize : max 1 pageSize = pageSize := Nat.max_eq_right hps
  have hperm : List.Perm (sortAlerts alerts) alerts := List.perm_insertionSort _ _
  have hlen : (sortAlerts alerts).length = alerts.length := hperm.length_eq
  have hpages : (buildReachabilityPage alerts page pageSize).pages =
      max 1 ((alerts.length + pageSize - 1) / pageSize) := by
    simp only [buildReachabilityPage, hsize]
  have hpage : (buildReachabilityPage alerts page pageSize).page =
      min (max 1 page) (((buildReachabilityPage alerts page pageSize).pages : ℕ) : ℤ) := by
    simp only [buildReachabilityPage, hsize]
  have hcover : alerts.length ≤
      (max 1 ((alerts.length + pageSize - 1) / pageSize)) * pageSize := by
    rcases Nat.eq_zero_or_pos alerts.length with h0 | h0
    · simp [h0]
    · have hq : 1 ≤ (alerts.length + pageSize - 1) / pageSize :=
        (Nat.one_le_div_iff hps).mpr (by omega)
      rw [Nat.max_eq_right hq, mul_comm]
      have hdm := Nat.div_add_mod (alerts.length + pageSize - 1) pageSize
      have hmlt := Nat.mod_lt (alerts.length + pageSize - 1) hps
      generalize hA : pageSize * ((alerts.length + pageSize - 1) / pageSize) = A at *
      omega
  refine ⟨hpages, ?_, ?_, ?_, ?_, List.sorted_insertionSort alertLe alerts, hperm⟩
  · rw [hpage]
    refine le_min (le_max_left 1 page) ?_
    have h1 : 1 ≤ (buildReachabilityPage alerts page pageSize).pages := by
      rw [hpages]; exact le_max_left 1 _
    exact_mod_cast h1
  · rw [hpage]
    exact min_le_right _ _
  · simp only [buildReachabilityPage, hsize]
  · rw [hpages, join_take_slices]
    apply List.take_of_length_le
    rw [hlen]
    exact hcover

/-- Witness for C7: three candidate alerts (downtimes 5, 3, 5 minutes),
requested page 7, page size 2: the report has 2 pages, the request is
clamped to page 2, and that page is the last element of the sorted list
`[⟨5,200⟩, ⟨5,100⟩, ⟨3,50⟩]`. -/
theorem buildReachabilityPage_spec_witness :
    (0 < 2) ∧
    (buildReachabilityPage
        [⟨5, 100, 1⟩, ⟨3, 50, 2⟩, ⟨5, 200, 3⟩] 7 2).pages = 2 ∧
    (buildReachabilityPage
        [⟨5, 100, 1⟩, ⟨3, 50, 2⟩, ⟨5, 200, 3⟩] 7 2).page = 2 ∧
    (buildReachabilityPage
        [⟨5, 100, 1⟩, ⟨3, 50, 2⟩, ⟨5, 200, 3⟩] 7 2).alerts = [⟨3, 50, 2⟩] ∧
    sortAlerts [⟨5, 100, 1⟩, ⟨3, 50, 2⟩, ⟨5, 200, 3⟩] =
      [⟨5, 200, 3⟩, ⟨5, 100, 1⟩, ⟨3, 50, 2⟩] ∧
    ((buildReachabilityPage
        [⟨5, 100, 1⟩, ⟨3, 50, 2⟩, ⟨5, 200, 3⟩] 7 2).pages =
      max 1 ((([⟨5, 100, 1⟩, ⟨3, 50, 2⟩, ⟨5, 200, 3⟩] : List RAlert).length + 2 - 1) / 2) ∧
      1 ≤ (buildReachabilityPage
        [⟨5, 100, 1⟩, ⟨3, 50, 2⟩, ⟨5, 200, 3⟩] 7 2).page ∧
      (buildReachabilityPage
        [⟨5, 100, 1⟩, ⟨3, 50, 2⟩, ⟨5, 200, 3⟩] 7 2).page ≤
        ((buildReachabilityPage
          [⟨5, 100, 1⟩, ⟨3, 50, 2⟩, ⟨5, 200, 3⟩] 7 2).pages : ℤ) ∧
      (buildReachabilityPage
        [⟨5, 100, 1⟩, ⟨3, 50, 2⟩, ⟨5, 200, 3⟩] 7 2).alerts =
        ((sortAlerts [⟨5, 100, 1⟩, ⟨3, 50, 2⟩, ⟨5, 200, 3⟩]).drop
          ((((buildReachabilityPage
            [⟨5, 100, 1⟩, ⟨3, 50, 2⟩, ⟨5, 200, 3⟩] 7 2).page - 1) * (2 : ℤ)).toNat)).take 2 ∧
      ((List.range (buildReachabilityPage
          [⟨5, 100, 1⟩, ⟨3, 50, 2⟩, ⟨5, 200, 3⟩] 7 2).pages).map
        (fun k => ((sortAlerts [⟨5, 100, 1⟩, ⟨3, 50, 2⟩, ⟨5, 200, 3⟩]).drop (k * 2)).take 2)).flatten =
        sortAlerts [⟨5, 100, 1⟩, ⟨3, 50, 2⟩, ⟨5, 200, 3⟩] ∧
      (sortAlerts [⟨5, 100, 1⟩, ⟨3, 50, 2⟩, ⟨5, 200, 3⟩]).Pairwise alertLe ∧
      List.Perm (sortAlerts [⟨5, 100, 1⟩, ⟨3, 50, 2⟩, ⟨5, 200, 3⟩])
        [⟨5, 100, 1⟩, ⟨3, 50, 2⟩, ⟨5, 200, 3⟩]) :=
  ⟨by decide, by decide, by decide, by decide, by decide,
    buildReachabilityPage_spec [⟨5, 100, 1⟩, ⟨3, 50, 2⟩, ⟨5, 200, 3⟩] 7 2 (by decide)⟩

/-! ## C8: alert classification -/

/-- Every branch of `deriveAlertType` carries the same
`isReachabilitySignal` verdict. -/
theorem deriveAlertType_isReachability (items : List String) (text : String) :
    (deriveAlertType items text).isReachability =
      isReachabilitySignal (triggerHaystack items text)
        (isAgentAvailabilityCheck (triggerItemKeys items) (triggerHaystack items text))
        (isSnmpTrapSignal (triggerItemKeys items) (triggerHaystack items text)) := by
  simp only [deriveAlertType]
  repeat' split
  all_goals rfl

/-- C8 (amended). An input whose haystack contains `icmpping` is classified
with alertType `ICMP`, and is reachability-class provided it carries no
SNMP-trap signal; an input carrying an SNMP-trap signal is not
reachability-class provided it is not an agent-availability check (the
agent check takes precedence over the SNMP-trap exclusion). -/
theorem deriveAlertType_spec (items : List String) (text : String) :
    (hsIncludes (triggerHaystack items text) "icmpping" = true →
      isSnmpTrapSignal (triggerItemKeys items) (triggerHaystack items text) = false →
      (deriveAlertType items text).alertType = "ICMP" ∧
        (deriveAlertType items text).isReachability = true) ∧
    (isSnmpTrapSignal (triggerItemKeys items) (triggerHaystack items text) = true →
      isAgentAvailabilityCheck (triggerItemKeys items) (triggerHaystack items text) = false →
      (deriveAlertType items text).isReachability = false) := by
  constructor
  · intro h1 h2
    constructor
    · simp [deriveAlertType, h1]
    · rw [deriveAlertType_isReachability]
      cases hA : isAgentAvailabilityCheck (triggerItemKeys items) (triggerHaystack items text) <;>
        simp [isReachabilitySignal, hA, h1, h2]
  · intro h1 h2
    rw [deriveAlertType_isReachability]
    simp [isReachabilitySignal, h1, h2]

/-- Witness for C8: scenario 5 — trigger item key `icmpping` (empty
trigger text) is classified `ICMP` and reachability-class. -/
theorem deriveAlertType_spec_witness :
    hsIncludes (triggerHaystack ["icmpping"] "") "icmpping" = true ∧
    isSnmpTrapSignal (triggerItemKeys ["icmpping"]) (triggerHaystack ["icmpping"] "") = false ∧
    ((deriveAlertType ["icmpping"] "").alertType = "ICMP" ∧
      (deriveAlertType ["icmpping"] "").isReachability = true) :=
  ⟨by decide, by decide, (deriveAlertType_spec ["icmpping"] "").1 (by decide) (by decide)⟩

/-- Counterexample to C8 as stated: (a) the input with trigger text
`"icmpping snmptrap"` has a haystack containing `icmpping` yet is *not*
reachability-class (the SNMP-trap exclusion wins); (b) the input with item
key `agent.ping` and text `"snmp trap"` carries an SNMP-trap signal yet
*is* reachability-class (the agent-availability check wins). -/
theorem deriveAlertType_cex :
    (hsIncludes (triggerHaystack [] "icmpping snmptrap") "icmpping" = true ∧
      (deriveAlertType [] "icmpping snmptrap").alertType = "ICMP" ∧
      (deriveAlertType [] "icmpping snmptrap").isReachability = false) ∧
    (isSnmpTrapSignal (triggerItemKeys ["agent.ping"])
        (triggerHaystack ["agent.ping"] "snmp trap") = true ∧
      (deriveAlertType ["agent.ping"] "snmp trap").isReachability = true) := by
  decide

end NocDash
